import Mathlib

/-!
Verification development for the ISS/Tiangong/HST transit-finder service.

The embedding translates the Python sources:
  * api/calculator.py  — the transit pipeline (coarse/fine search, gates,
    classification, path extraction, request handler),
  * api/schemas.py     — the request/response data model,
  * download_tle.py    — the TLE fetch fallback.

Numbers: the Python code computes with IEEE floats; the embedding idealises
them as an arbitrary linear ordered field K (instantiated at ℚ for concrete
evaluations).  Library calls (Skyfield positions, numpy trig, the time scale)
are modelled as oracle functions supplied in a SkyOracle record; the
arithmetic glue, the control flow and every comparison are translated from
the source.  Times are Terrestrial-Time Julian dates, modelled as exact
rationals, matching the float arithmetic of the source formula-for-formula.
-/

set_option maxRecDepth 20000

set_option maxHeartbeats 1000000

/-- Python int() conversion applied to a rational: truncation toward zero
(Int.tdiv is truncated division, and a Rat is stored with positive
denominator). -/
def pyInt (q : ℚ) : ℤ :=
  q.num.tdiv q.den

/-- Oracle record bundling every external library quantity the worker
_process_single_pass consumes, each as a function of the TT Julian date.
shadow t returns the validity flag and the subpoint (lat, lon) degrees that
_get_shadow_path produces for the sample at time t; the *Deg/*Km functions
model the observer-frame quantities Skyfield returns at the transit instant;
the F-suffixed fields model the numpy scalar functions (sin, cos, arcsin,
sqrt, tan, radians) used inside haversine and the swath computation; isoUtc
models Time.utc_datetime().isoformat(). -/
structure SkyOracle (K : Type) where
  shadow : ℚ → Bool × K × K
  bodyAltDeg : ℚ → K
  sepDeg : ℚ → K
  satAzDeg : ℚ → K
  satAltDeg : ℚ → K
  satDistKm : ℚ → K
  bodyDistKm : ℚ → K
  arcsinF : K → K
  tanF : K → K
  sinF : K → K
  cosF : K → K
  asinF : K → K
  sqrtF : K → K
  radF : K → K
  isoUtc : ℚ → String

/-- Model of schemas.TransitPoint. -/
structure TransitPoint (K : Type) where
  lat : K
  lon : K
deriving DecidableEq

/-- Model of schemas.TransitEvent. -/
structure TransitEvent (K : Type) where
  satellite : String
  celestial_body : String
  transit_type : String
  time_utc : String
  duration_sec : K
  swath_width_km : K
  separation_deg : K
  azimuth_deg : K
  elevation_deg : K
  path_points : List (TransitPoint K)
deriving DecidableEq

/-- Arguments of one _process_single_pass work item.  satFound models
whether sats.get(sat_name) found the satellite (the `sat is None` check). -/
structure PassArgs (K : Type) where
  oracle : SkyOracle K
  satName : String
  bodyName : String
  satFound : Bool
  t_rise_tt : ℚ
  t_set_tt : ℚ
  obs_lat : K
  obs_lon : K
  radius_km : K

variable {K : Type} [LinearOrderedField K]

/-- Model of calculator.haversine: great-circle distance with R = 6371.0 km.
The numpy trig and radians conversions come from the oracle. -/
def haversineK (o : SkyOracle K) (lat1 lon1 lat2 lon2 : K) : K :=
  let R : K := 6371
  let rlat1 := o.radF lat1
  let rlon1 := o.radF lon1
  let rlat2 := o.radF lat2
  let rlon2 := o.radF lon2
  let dlat := rlat2 - rlat1
  let dlon := rlon2 - rlon1
  let a := o.sinF (dlat / 2) ^ 2 + o.cosF rlat1 * o.cosF rlat2 * o.sinF (dlon / 2) ^ 2
  let c := 2 * o.asinF (o.sqrtF a)
  R * c

/-- Helper for np.argmin: fold keeping the first strictly smallest value. -/
def argminAux : List (WithTop K) → ℕ → ℕ × WithTop K → ℕ × WithTop K
  | [], _, best => best
  | x :: xs, i, best => argminAux xs (i + 1) (if x < best.2 then (i, x) else best)

/-- Model of np.argmin on a list of masked distances: index of the first
occurrence of the minimum (0 on the empty list, which the pipeline never
queries). -/
def argminIdx (l : List (WithTop K)) : ℕ :=
  match l with
  | [] => 0
  | x :: xs => (argminAux xs 1 (0, x)).1

/-- Duration of the pass in seconds: (t_set_tt - t_rise_tt) * 24.0 * 3600.0. -/
def durationSec (tr ts : ℚ) : ℚ :=
  (ts - tr) * 24 * 3600

/-- Coarse sample count: max(2, int(duration / 2.0)). -/
def coarseCount (tr ts : ℚ) : ℕ :=
  (max 2 (pyInt (durationSec tr ts / 2))).toNat

/-- Coarse sample time i: t_rise_tt + i * 2.0 / (24.0 * 3600.0). -/
def coarseTime (tr : ℚ) (i : ℕ) : ℚ :=
  tr + (i : ℚ) * 2 / (24 * 3600)

/-- The coarse 2-second grid, np.arange(0, coarse_samples) mapped through
coarseTime. -/
def coarseTimesList (tr ts : ℚ) : List ℚ :=
  (List.range (coarseCount tr ts)).map (coarseTime tr)

/-- Masked distance of the shadow sample at time t from the observer:
haversine of the subpoint when the sample is valid, np.inf (⊤) otherwise
(dists[~valid] = np.inf). -/
def sampleDist (o : SkyOracle K) (obsLat obsLon : K) (t : ℚ) : WithTop K :=
  let s := o.shadow t
  if s.1 then ((haversineK o s.2.1 s.2.2 obsLat obsLon : K) : WithTop K) else ⊤

/-- Coarse masked-distance array. -/
def coarseDists (p : PassArgs K) : List (WithTop K) :=
  (coarseTimesList p.t_rise_tt p.t_set_tt).map (sampleDist p.oracle p.obs_lat p.obs_lon)

/-- Index of the coarse minimum (np.argmin(dists)). -/
def coarseMinIdx (p : PassArgs K) : ℕ :=
  argminIdx (coarseDists p)

/-- Value of the coarse minimum (dists[min_dist_idx]). -/
def coarseMinD (p : PassArgs K) : WithTop K :=
  (coarseDists p).getD (coarseMinIdx p) ⊤

/-- Fine window centre: coarse_times_array[min_dist_idx]. -/
def fineCenter (p : PassArgs K) : ℚ :=
  coarseTime p.t_rise_tt (coarseMinIdx p)

/-- Fine window start: max(t_rise_tt, fine_center_tt - 10.0 / (24.0 * 3600.0)). -/
def fineStart (p : PassArgs K) : ℚ :=
  max p.t_rise_tt (fineCenter p - 10 / (24 * 3600))

/-- Fine window end: min(t_set_tt, fine_center_tt + 10.0 / (24.0 * 3600.0)). -/
def fineEnd (p : PassArgs K) : ℚ :=
  min p.t_set_tt (fineCenter p + 10 / (24 * 3600))

/-- Fine window duration in seconds. -/
def fineDurSec (p : PassArgs K) : ℚ :=
  (fineEnd p - fineStart p) * 24 * 3600

/-- Fine sample count before the < 2 gate: int(fine_duration_sec * 10). -/
def fineCountZ (p : PassArgs K) : ℤ :=
  pyInt (fineDurSec p * 10)

/-- Fine sample time i: fine_start_tt + i / (24.0 * 3600.0 * 10). -/
def fineTime (fs : ℚ) (i : ℕ) : ℚ :=
  fs + (i : ℚ) / (24 * 3600 * 10)

/-- The fine 0.1-second grid. -/
def fineTimesList (p : PassArgs K) : List ℚ :=
  (List.range (fineCountZ p).toNat).map (fineTime (fineStart p))

/-- Fine masked-distance array. -/
def fineDists (p : PassArgs K) : List (WithTop K) :=
  (fineTimesList p).map (sampleDist p.oracle p.obs_lat p.obs_lon)

/-- Index of the fine minimum. -/
def fineMinIdx (p : PassArgs K) : ℕ :=
  argminIdx (fineDists p)

/-- Value of the fine minimum (fine_dists[fine_min_idx]). -/
def fineMinD (p : PassArgs K) : WithTop K :=
  (fineDists p).getD (fineMinIdx p) ⊤

/-- Transit instant: fine_times[fine_min_idx]. -/
def transitT (p : PassArgs K) : ℚ :=
  fineTime (fineStart p) (fineMinIdx p)

/-- Swath width: 2 * sat_dist_km * tan(arcsin(body_radius_km / body_dist_km))
with body_radius_km = 696340.0 for the Sun and 1737.4 for the Moon. -/
def swathWidth (p : PassArgs K) : K :=
  let bodyRadius : K := if p.bodyName = "Sun" then 696340 else 17374 / 10
  let angularRadius := p.oracle.arcsinF (bodyRadius / p.oracle.bodyDistKm (transitT p))
  let swathRadius := p.oracle.satDistKm (transitT p) * p.oracle.tanF angularRadius
  swathRadius * 2

/-- Centerline points: the subpoints at every fine index j with
fine_valid[j], in index order (the j-loop of _process_single_pass). -/
def pathPoints (p : PassArgs K) : List (TransitPoint K) :=
  (List.range (fineCountZ p).toNat).filterMap fun j =>
    let s := p.oracle.shadow (fineTime (fineStart p) j)
    if s.1 then some ⟨s.2.1, s.2.2⟩ else none

/-- Model of _process_single_pass: every early return of the source is an
if-branch, in source order.  Returns the TransitEvent data or none. -/
def processSinglePass (p : PassArgs K) : Option (TransitEvent K) :=
  if p.satFound = false then none
  else if durationSec p.t_rise_tt p.t_set_tt ≤ 0 then none
  else if (coarseTimesList p.t_rise_tt p.t_set_tt).all (fun t => !(p.oracle.shadow t).1) then none
  else if ((p.radius_km + 500 : K) : WithTop K) < coarseMinD p then none
  else if fineCountZ p < 2 then none
  else if (fineTimesList p).all (fun t => !(p.oracle.shadow t).1) then none
  else if ((p.radius_km : K) : WithTop K) < fineMinD p then none
  else if p.oracle.bodyAltDeg (transitT p) < -2 then none
  else if 5 < p.oracle.sepDeg (transitT p) then none
  else some
    { satellite := p.satName
      celestial_body := p.bodyName
      transit_type := if p.oracle.sepDeg (transitT p) < 28 / 100 then "Transit" else "Close Pass"
      time_utc := p.oracle.isoUtc (transitT p) ++ "Z"
      duration_sec := 3 / 2
      swath_width_km := swathWidth p
      separation_deg := p.oracle.sepDeg (transitT p)
      azimuth_deg := p.oracle.satAzDeg (transitT p)
      elevation_deg := p.oracle.satAltDeg (transitT p)
      path_points := pathPoints p }

/-- Quadratic b coefficient of the shadow ray–sphere intersection:
2.0 * sum(sat_pos * u) at one sample, written over the dot product su. -/
def bCoeff (su : K) : K :=
  2 * su

/-- Quadratic c coefficient: sum(sat_pos * sat_pos) - R**2 with
R = 6378.137, over the dot product ss. -/
def cCoeff (ss : K) : K :=
  ss - (6378137 / 1000 : K) ^ 2

/-- Discriminant b**2 - 4*a*c with a = 1. -/
def shadowDisc (su ss : K) : K :=
  bCoeff su ^ 2 - 4 * 1 * cCoeff ss

/-- Validity mask of a shadow sample: discriminant >= 0. -/
def shadowSampleOk (su ss : K) : Prop :=
  0 ≤ shadowDisc su ss

/-- Intersection parameter d = (-b - sqrt(maximum(0, discriminant))) / 2,
with the numpy sqrt supplied as an oracle. -/
def rayD (sqrtF : K → K) (su ss : K) : K :=
  (-(bCoeff su) - sqrtF (max 0 (shadowDisc su ss))) / 2

/-- Model of schemas.CalculateRequest (floats as rationals). -/
structure CalculateRequest where
  lat : ℚ
  lon : ℚ
  radius_km : ℚ
  start_date : String
  end_date : String
deriving DecidableEq

/-- Calendar datetime as Python datetime stores it. -/
structure PyDateTime where
  year : ℕ
  month : ℕ
  day : ℕ
  hour : ℕ
  minute : ℕ
  second : ℕ
  microsecond : ℕ
deriving DecidableEq

/-- Field ranges a Python datetime object guarantees (year 1..9999, real
month/hour/minute/second/microsecond ranges; day only bounded by 31 here,
the parser checks the per-month bound separately). -/
def ValidDT (d : PyDateTime) : Prop :=
  1 ≤ d.year ∧ d.year ≤ 9999 ∧ 1 ≤ d.month ∧ d.month ≤ 12 ∧ 1 ≤ d.day ∧ d.day ≤ 31 ∧
    d.hour ≤ 23 ∧ d.minute ≤ 59 ∧ d.second ≤ 59 ∧ d.microsecond ≤ 999999

instance (d : PyDateTime) : Decidable (ValidDT d) := by
  unfold ValidDT
  infer_instance

/-- Read exactly k decimal digits, most significant first. -/
def readFixedNat : ℕ → ℕ → List Char → Option (ℕ × List Char)
  | 0, acc, cs => some (acc, cs)
  | k + 1, acc, c :: cs =>
    if c.isDigit then readFixedNat k (acc * 10 + (c.toNat - 48)) cs else none
  | _ + 1, _, [] => none

/-- Consume one expected character. -/
def expectChar (c : Char) : List Char → Option (List Char)
  | d :: cs => if d = c then some cs else none
  | [] => none

/-- Gregorian leap-year rule, as Python calendar arithmetic applies it. -/
def isLeapYear (y : ℕ) : Bool :=
  (y % 4 = 0 && !(y % 100 = 0)) || y % 400 = 0

/-- Days in a month of a given year. -/
def daysInMonth (y m : ℕ) : ℕ :=
  if m = 2 then (if isLeapYear y then 29 else 28)
  else if m = 4 ∨ m = 6 ∨ m = 9 ∨ m = 11 then 30
  else 31

/-- Parse the time-of-day tail HH:MM[:SS[.ffffff]], requiring full
consumption.  Returns (hour, minute, second, microsecond). -/
def parseClock (cs : List Char) : Option (ℕ × ℕ × ℕ × ℕ) := do
  let (h, cs) ← readFixedNat 2 0 cs
  let cs ← expectChar ':' cs
  let (mi, cs) ← readFixedNat 2 0 cs
  match cs with
  | [] => some (h, mi, 0, 0)
  | _ => do
    let cs ← expectChar ':' cs
    let (s, cs) ← readFixedNat 2 0 cs
    match cs with
    | [] => some (h, mi, s, 0)
    | _ => do
      let cs ← expectChar '.' cs
      let (us, cs) ← readFixedNat 6 0 cs
      match cs with
      | [] => some (h, mi, s, us)
      | _ => none

/-- Modelled from the Python standard library: datetime.fromisoformat on the
shapes this service receives — YYYY-MM-DD optionally followed by one
separator character and HH:MM[:SS[.ffffff]] (CPython accepts any single
separator character at position 10; timezone suffixes are outside the
modelled subset).  Range validation matches the datetime constructor:
year >= 1, month 1..12, day 1..days-in-month, hour <= 23,
minute/second <= 59.  ValueError is modelled as none. -/
def fromisoformat (str : String) : Option PyDateTime := do
  let cs := str.toList
  let (y, cs) ← readFixedNat 4 0 cs
  let cs ← expectChar '-' cs
  let (mo, cs) ← readFixedNat 2 0 cs
  let cs ← expectChar '-' cs
  let (d, cs) ← readFixedNat 2 0 cs
  let (h, mi, s, us) ← match cs with
    | [] => some (0, 0, 0, 0)
    | _ :: rest => parseClock rest
  if 1 ≤ y ∧ 1 ≤ mo ∧ mo ≤ 12 ∧ 1 ≤ d ∧ d ≤ daysInMonth y mo ∧ h ≤ 23 ∧ mi ≤ 59 ∧ s ≤ 59 then
    some ⟨y, mo, d, h, mi, s, us⟩
  else
    none

/-- Model of ts.utc(dt.year, dt.month, dt.day): the handler passes only
the calendar date of the parsed datetime to the time scale, so the window
boundary is the 00:00 UTC instant of that date; the instant is represented
by its date triple. -/
def tsUtcOfDate (d : PyDateTime) : ℕ × ℕ × ℕ :=
  (d.year, d.month, d.day)

/-- The normalized request window (lines 234-240 of calculator.py):
parse both date strings, then keep only their calendar dates. -/
def normalizedWindow (req : CalculateRequest) : Option ((ℕ × ℕ × ℕ) × (ℕ × ℕ × ℕ)) :=
  match fromisoformat req.start_date, fromisoformat req.end_date with
  | some d0, some d1 => some (tsUtcOfDate d0, tsUtcOfDate d1)
  | _, _ => none

/-- Filesystem/network state the registry interacts with: whether visual.txt
exists, and whether any of the two TLE endpoints would answer. -/
structure World where
  catalogPresent : Bool
  fetchOk : Bool
deriving DecidableEq

/-- Abstract content of the parsed TLE catalog: the name-keyed mapping
get_satellites builds (presence of each logical name).  Its content comes
from the external file, so it is a parameter of the model. -/
def SatMapping : Type :=
  List (String × Bool)

instance : DecidableEq SatMapping :=
  inferInstanceAs (DecidableEq (List (String × Bool)))

/-- Errors that can cross the request boundary in the model. -/
inductive ApiError where
  | badRequest (detail : String)
  | fileNotFound
deriving DecidableEq

/-- Model of download_tle.py: every URL failure is swallowed; on any
success visual.txt is written.  The script itself never raises. -/
def download_tle (w : World) : World :=
  if w.fetchOk then { w with catalogPresent := true } else w

/-- Model of calculator.get_satellites: load the catalog; on
FileNotFoundError run download_tle.py once and load again — the second
load raises FileNotFoundError when the file is still absent, and nothing
catches it. -/
def get_satellites (w : World) (catalog : SatMapping) : Except ApiError SatMapping :=
  if w.catalogPresent then Except.ok catalog
  else if (download_tle w).catalogPresent then Except.ok catalog
  else Except.error ApiError.fileNotFound

/-- Relation ordering events by their time_utc string, as the
all_events.sort(key=lambda x: x.time_utc) call does. -/
def timeUtcLe (a b : TransitEvent ℚ) : Prop :=
  a.time_utc ≤ b.time_utc

instance : DecidableRel timeUtcLe :=
  fun a b => inferInstanceAs (Decidable (a.time_utc ≤ b.time_utc))

instance : IsTotal (TransitEvent ℚ) timeUtcLe :=
  ⟨fun a b => le_total a.time_utc b.time_utc⟩

instance : IsTrans (TransitEvent ℚ) timeUtcLe :=
  ⟨fun _ _ _ h1 h2 => le_trans h1 h2⟩

/-- Model of all_events.sort(key=lambda x: x.time_utc): a stable sort by
the time_utc string (Python list.sort is stable; insertion sort is the
stable reference model). -/
def sortEvents (l : List (TransitEvent ℚ)) : List (TransitEvent ℚ) :=
  List.insertionSort timeUtcLe l

/-- Model of the calculate_transits request handler: parse both dates
(ValueError becomes the HTTP 400 BadRequest), then call get_satellites —
whose exception, if any, propagates uncaught — then gather the pool
results (abstracted as rawEvents, since completion order is
nondeterministic) and return them sorted by time_utc. -/
def calculate_transits (w : World) (catalog : SatMapping)
    (rawEvents : List (TransitEvent ℚ)) (req : CalculateRequest) :
    Except ApiError (List (TransitEvent ℚ)) :=
  match fromisoformat req.start_date, fromisoformat req.end_date with
  | some _, some _ =>
    match get_satellites w catalog with
    | Except.ok _ => Except.ok (sortEvents rawEvents)
    | Except.error e => Except.error e
  | _, _ => Except.error (ApiError.badRequest ("Invalid date format. Use YYYY-MM-DD"))

/-- Decimal digit as a character. -/
def digitChar (d : ℕ) : Char :=
  Char.ofNat (48 + d)

/-- Zero-padded fixed-width decimal rendering, most significant digit
first: padC k n prints the k low decimal digits of n. -/
def padC : ℕ → ℕ → List Char
  | 0, _ => []
  | k + 1, n => digitChar (n / 10 ^ k % 10) :: padC k n

/-- The YYYY-MM-DDTHH:MM:SS prefix of datetime.isoformat(). -/
def dtPre (d : PyDateTime) : List Char :=
  padC 4 d.year ++ '-' :: (padC 2 d.month ++ '-' :: (padC 2 d.day ++
    'T' :: (padC 2 d.hour ++ ':' :: (padC 2 d.minute ++ ':' :: padC 2 d.second))))

/-- The fractional-seconds part of datetime.isoformat(): empty when the
microsecond field is zero, otherwise a dot and six digits. -/
def dtFrac (d : PyDateTime) : List Char :=
  if d.microsecond = 0 then [] else '.' :: padC 6 d.microsecond

/-- The +00:00 offset suffix isoformat() prints for a timezone-aware UTC
datetime (Skyfield utc_datetime() returns an aware datetime). -/
def utcOffsetChars : List Char :=
  ['+', '0', '0', ':', '0', '0']

/-- Model of transit_time.utc_datetime().isoformat(). -/
def isoformatUtc (d : PyDateTime) : String :=
  ⟨dtPre d ++ dtFrac d ++ utcOffsetChars⟩

/-- The time_utc field of an emitted event: isoformat() + "Z". -/
def timeUtcOf (d : PyDateTime) : String :=
  isoformatUtc d ++ "Z"

/-- Mixed-radix index of the whole-second part of a datetime: strictly
monotone in chronological order for valid datetimes. -/
def preKey (d : PyDateTime) : ℕ :=
  ((((d.year * 13 + d.month) * 32 + d.day) * 24 + d.hour) * 60 + d.minute) * 60 + d.second

/-- Mixed-radix chronological index of a datetime, microseconds included. -/
def chronoKey (d : PyDateTime) : ℕ :=
  preKey d * 1000000 + d.microsecond

/-- Concrete oracle under which every gate passes: the shadow track sits on
the observer, the body is up and the separation is zero. -/
def wOracleEmit : SkyOracle ℚ :=
  { shadow := fun _ => (true, 0, 0)
    bodyAltDeg := fun _ => 0
    sepDeg := fun _ => 0
    satAzDeg := fun _ => 0
    satAltDeg := fun _ => 0
    satDistKm := fun _ => 1
    bodyDistKm := fun _ => 1
    arcsinF := id
    tanF := id
    sinF := fun _ => 0
    cosF := fun _ => 0
    asinF := id
    sqrtF := id
    radF := id
    isoUtc := fun _ => "T" }

/-- A 0.4-second pass through wOracleEmit: the worker emits an event with
four fine samples. -/
def pEmit : PassArgs ℚ :=
  { oracle := wOracleEmit
    satName := "ISS"
    bodyName := "Sun"
    satFound := true
    t_rise_tt := 0
    t_set_tt := 1 / 216000
    obs_lat := 0
    obs_lon := 0
    radius_km := 1 }

/-- The event pEmit produces. -/
def evEmit : TransitEvent ℚ :=
  { satellite := "ISS"
    celestial_body := "Sun"
    transit_type := "Transit"
    time_utc := "TZ"
    duration_sec := 3 / 2
    swath_width_km := 1392680
    separation_deg := 0
    azimuth_deg := 0
    elevation_deg := 0
    path_points := List.replicate 4 ⟨0, 0⟩ }

/-- Oracle whose shadow track stays 3185.5 km from the observer
(haversine through the trivial trig oracles gives 6371 / 2). -/
def wOracleFar : SkyOracle ℚ :=
  { wOracleEmit with shadow := fun _ => (true, 1, 0), sinF := id }

/-- Coarse minimum 3185.5 <= radius + 500 = 3500 but fine minimum
3185.5 > radius = 3000: the fine gate rejects. -/
def pFineReject : PassArgs ℚ :=
  { pEmit with oracle := wOracleFar, radius_km := 3000 }

/-- A 0.1-second pass: the fine window holds a single sample. -/
def pFewFine : PassArgs ℚ :=
  { pEmit with oracle := wOracleFar, t_set_tt := 1 / 864000, radius_km := 4000 }

/-- Coarse minimum 3185.5 > radius + 500 = 2500: the coarse gate rejects. -/
def pCoarseReject : PassArgs ℚ :=
  { pEmit with oracle := wOracleFar, radius_km := 2000 }

/-- Oracle with no valid shadow sample at all. -/
def wOracleInvalid : SkyOracle ℚ :=
  { wOracleEmit with shadow := fun _ => (false, 0, 0) }

/-- Pass whose every shadow sample misses the Earth. -/
def pInvalid : PassArgs ℚ :=
  { pEmit with oracle := wOracleInvalid }

/-- Oracle with the body 3 degrees below the horizon. -/
def wOracleLowAlt : SkyOracle ℚ :=
  { wOracleEmit with bodyAltDeg := fun _ => -3 }

/-- Pass rejected by the altitude gate. -/
def pLowAlt : PassArgs ℚ :=
  { pEmit with oracle := wOracleLowAlt }

/-- Oracle with a 6-degree separation. -/
def wOracleWideSep : SkyOracle ℚ :=
  { wOracleEmit with sepDeg := fun _ => 6 }

/-- Pass rejected by the 5-degree separation gate. -/
def pWideSep : PassArgs ℚ :=
  { pEmit with oracle := wOracleWideSep }

/-- Oracle with a 1-degree separation: emitted as a Close Pass. -/
def wOracleClose : SkyOracle ℚ :=
  { wOracleEmit with sepDeg := fun _ => 1 }

/-- Pass emitted with transit_type Close Pass. -/
def pClose : PassArgs ℚ :=
  { pEmit with oracle := wOracleClose }

/-- The event pClose produces. -/
def evClose : TransitEvent ℚ :=
  { evEmit with transit_type := "Close Pass", separation_deg := 1 }

/-- A well-formed request. -/
def reqGood : CalculateRequest :=
  { lat := 0, lon := 0, radius_km := 25, start_date := "2024-05-01", end_date := "2024-05-31" }

/-- A request with slashes in the date (seed scenario 4). -/
def reqBadDate : CalculateRequest :=
  { lat := 0, lon := 0, radius_km := 25, start_date := "2024/05/01", end_date := "2024-05-31" }

/-- A request violating every documented numeric range. -/
def reqOutOfRange : CalculateRequest :=
  { lat := 1000, lon := -999, radius_km := -5, start_date := "2024-05-01", end_date := "2024-05-02" }

/-- A request whose start date carries a time-of-day component. -/
def reqTimeOfDay : CalculateRequest :=
  { lat := 0, lon := 0, radius_km := 1, start_date := "2024-05-01T12:34:56", end_date := "2024-05-02" }

/-- Catalog file absent, both endpoints unreachable. -/
def wAbsent : World :=
  { catalogPresent := false, fetchOk := false }

/-- Catalog file present. -/
def wPresent : World :=
  { catalogPresent := true, fetchOk := false }

/-- A datetime whose isoformat omits the microsecond field. -/
def dtWhole : PyDateTime :=
  ⟨2024, 5, 1, 12, 0, 0, 0⟩

/-- Half a second after dtWhole. -/
def dtHalf : PyDateTime :=
  ⟨2024, 5, 1, 12, 0, 0, 500000⟩

theorem lexConsIff {α : Type} {r : α → α → Prop} {a b : α} {l1 l2 : List α} :
    List.Lex r (a :: l1) (b :: l2) ↔ r a b ∨ (a = b ∧ List.Lex r l1 l2) := by
  constructor
  · intro h
    cases h with
    | cons h => exact Or.inr ⟨rfl, h⟩
    | rel h => exact Or.inl h
  · intro h
    rcases h with h | ⟨rfl, h⟩
    · exact List.Lex.rel h
    · exact List.Lex.cons h

theorem lexAppendIff {α : Type} {r : α → α → Prop} :
    ∀ {l1 l2 : List α} (s1 s2 : List α), l1.length = l2.length →
      (List.Lex r (l1 ++ s1) (l2 ++ s2) ↔
        List.Lex r l1 l2 ∨ (l1 = l2 ∧ List.Lex r s1 s2)) := by
  intro l1
  induction l1 with
  | nil =>
    intro l2 s1 s2 h
    cases l2 with
    | nil =>
      simp only [List.nil_append]
      constructor
      · intro h2
        exact Or.inr ⟨by simp, h2⟩
      · intro h2
        rcases h2 with h3 | h3
        · exact absurd h3 (List.Lex.not_nil_right r [])
        · exact h3.2
    | cons b t => simp at h
  | cons a t ih =>
    intro l2 s1 s2 h
    cases l2 with
    | nil => simp at h
    | cons b t2 =>
      simp only [List.cons_append, lexConsIff, List.cons.injEq]
      rw [ih s1 s2 (by simpa using h)]
      tauto

theorem lexIrrefl {α : Type} {r : α → α → Prop} (hirr : ∀ a, ¬ r a a) :
    ∀ l : List α, ¬ List.Lex r l l := by
  intro l
  induction l with
  | nil => exact List.Lex.not_nil_right r []
  | cons a t ih =>
    intro h
    rcases lexConsIff.mp h with h | ⟨_, h⟩
    · exact hirr a h
    · exact ih h

theorem digitCharLt : ∀ d1, d1 < 10 → ∀ d2, d2 < 10 →
    (digitChar d1 < digitChar d2 ↔ d1 < d2) := by
  decide

theorem digitCharEq : ∀ d1, d1 < 10 → ∀ d2, d2 < 10 →
    (digitChar d1 = digitChar d2 ↔ d1 = d2) := by
  decide

theorem padC_length : ∀ (k n : ℕ), (padC k n).length = k := by
  intro k
  induction k with
  | zero => intro n; rfl
  | succ k ih => intro n; simp [padC, ih]

theorem padC_mod_eq : ∀ (k : ℕ) {m n : ℕ}, m % 10 ^ k = n % 10 ^ k → padC k m = padC k n := by
  intro k
  induction k with
  | zero => intro m n _; rfl
  | succ k ih =>
    intro m n h
    have hdvd : 10 ^ k ∣ 10 ^ (k + 1) := pow_dvd_pow 10 (Nat.le_succ k)
    have hd : m / 10 ^ k % 10 = n / 10 ^ k % 10 := by
      have h1 : m % (10 ^ k * 10) / 10 ^ k = m / 10 ^ k % 10 := Nat.mod_mul_right_div_self m _ _
      have h2 : n % (10 ^ k * 10) / 10 ^ k = n / 10 ^ k % 10 := Nat.mod_mul_right_div_self n _ _
      rw [← h1, ← h2, ← pow_succ, h]
    have ht : m % 10 ^ k = n % 10 ^ k := by
      have h1 : m % 10 ^ (k + 1) % 10 ^ k = m % 10 ^ k := Nat.mod_mod_of_dvd m hdvd
      have h2 : n % 10 ^ (k + 1) % 10 ^ k = n % 10 ^ k := Nat.mod_mod_of_dvd n hdvd
      rw [← h1, ← h2, h]
    simp only [padC, hd, ih ht]

theorem mixedRadixLt {P a b c d : ℕ} (hb : b < P) (hd : d < P) :
    P * a + b < P * c + d ↔ a < c ∨ (a = c ∧ b < d) := by
  constructor
  · intro h
    rcases Nat.lt_trichotomy a c with hac | hac | hac
    · exact Or.inl hac
    · subst hac
      exact Or.inr ⟨rfl, by omega⟩
    · exfalso
      have hlt : P * c + d < P * a + b :=
        calc P * c + d < P * c + P := Nat.add_lt_add_left hd _
          _ = P * (c + 1) := by ring
          _ ≤ P * a := Nat.mul_le_mul_left P hac
          _ ≤ P * a + b := Nat.le_add_right _ _
      exact Nat.lt_asymm h hlt
  · intro h
    rcases h with hac | ⟨rfl, hbd⟩
    · calc P * a + b < P * a + P := Nat.add_lt_add_left hb _
        _ = P * (a + 1) := by ring
        _ ≤ P * c := Nat.mul_le_mul_left P hac
        _ ≤ P * c + d := Nat.le_add_right _ _
    · exact Nat.add_lt_add_left hbd _

theorem padC_lt_iff : ∀ (k : ℕ) {m n : ℕ}, m < 10 ^ k → n < 10 ^ k →
    (List.Lex (· < ·) (padC k m) (padC k n) ↔ m < n) := by
  intro k
  induction k with
  | zero =>
    intro m n hm hn
    interval_cases m
    interval_cases n
    exact iff_of_false (List.Lex.not_nil_right _ _) (by omega)
  | succ k ih =>
    intro m n hm hn
    have hp : 0 < 10 ^ k := Nat.pos_pow_of_pos k (by omega)
    have hm10 : m / 10 ^ k < 10 := by
      rw [Nat.div_lt_iff_lt_mul hp, ← pow_succ']
      exact hm
    have hn10 : n / 10 ^ k < 10 := by
      rw [Nat.div_lt_iff_lt_mul hp, ← pow_succ']
      exact hn
    have em : m / 10 ^ k % 10 = m / 10 ^ k := Nat.mod_eq_of_lt hm10
    have en : n / 10 ^ k % 10 = n / 10 ^ k := Nat.mod_eq_of_lt hn10
    have pm : padC k m = padC k (m % 10 ^ k) := padC_mod_eq k (Nat.mod_mod_of_dvd m dvd_rfl).symm
    have pn : padC k n = padC k (n % 10 ^ k) := padC_mod_eq k (Nat.mod_mod_of_dvd n dvd_rfl).symm
    simp only [padC]
    rw [lexConsIff, em, en, digitCharLt _ hm10 _ hn10, digitCharEq _ hm10 _ hn10, pm, pn,
      ih (Nat.mod_lt m hp) (Nat.mod_lt n hp),
      ← mixedRadixLt (Nat.mod_lt m hp) (Nat.mod_lt n hp), Nat.div_add_mod, Nat.div_add_mod]

theorem padC_eq_iff : ∀ (k : ℕ) {m n : ℕ}, m < 10 ^ k → n < 10 ^ k →
    (padC k m = padC k n ↔ m = n) := by
  intro k
  induction k with
  | zero =>
    intro m n hm hn
    interval_cases m
    interval_cases n
    simp [padC]
  | succ k ih =>
    intro m n hm hn
    have hp : 0 < 10 ^ k := Nat.pos_pow_of_pos k (by omega)
    have hm10 : m / 10 ^ k < 10 := by
      rw [Nat.div_lt_iff_lt_mul hp, ← pow_succ']
      exact hm
    have hn10 : n / 10 ^ k < 10 := by
      rw [Nat.div_lt_iff_lt_mul hp, ← pow_succ']
      exact hn
    have em : m / 10 ^ k % 10 = m / 10 ^ k := Nat.mod_eq_of_lt hm10
    have en : n / 10 ^ k % 10 = n / 10 ^ k := Nat.mod_eq_of_lt hn10
    have pm : padC k m = padC k (m % 10 ^ k) := padC_mod_eq k (Nat.mod_mod_of_dvd m dvd_rfl).symm
    have pn : padC k n = padC k (n % 10 ^ k) := padC_mod_eq k (Nat.mod_mod_of_dvd n dvd_rfl).symm
    simp only [padC, List.cons.injEq]
    rw [em, en, digitCharEq _ hm10 _ hn10, pm, pn,
      ih (Nat.mod_lt m hp) (Nat.mod_lt n hp)]
    constructor
    · rintro ⟨h1, h2⟩
      have em2 := Nat.div_add_mod m (10 ^ k)
      have en2 := Nat.div_add_mod n (10 ^ k)
      rw [← em2, ← en2, h1, h2]
    · intro h
      subst h
      exact ⟨rfl, rfl⟩

theorem lexConsSameChar {c : Char} {l1 l2 : List Char} :
    List.Lex (· < ·) (c :: l1) (c :: l2) ↔ List.Lex (· < ·) l1 l2 := by
  rw [lexConsIff]
  simp [lt_irrefl]

theorem lexPadBlock {k a b : ℕ} {s1 s2 : List Char} :
    List.Lex (· < ·) (padC k a ++ s1) (padC k b ++ s2) ↔
      List.Lex (· < ·) (padC k a) (padC k b) ∨ (padC k a = padC k b ∧ List.Lex (· < ·) s1 s2) :=
  lexAppendIff s1 s2 (by rw [padC_length, padC_length])

theorem padBlockEq {k a b : ℕ} {s1 s2 : List Char} :
    (padC k a ++ s1 = padC k b ++ s2) ↔ (padC k a = padC k b ∧ s1 = s2) := by
  constructor
  · intro h
    exact List.append_inj h (by rw [padC_length, padC_length])
  · rintro ⟨h1, h2⟩
    rw [h1, h2]

theorem dtPre_length (d : PyDateTime) : (dtPre d).length = 19 := by
  simp [dtPre, padC_length]

theorem dtPre_lex_iff {d1 d2 : PyDateTime} (h1 : ValidDT d1) (h2 : ValidDT d2) :
    List.Lex (· < ·) (dtPre d1) (dtPre d2) ↔ preKey d1 < preKey d2 := by
  obtain ⟨hy1a, hy1b, hmo1a, hmo1b, hd1a, hd1b, hh1, hmi1, hs1, -⟩ := h1
  obtain ⟨hy2a, hy2b, hmo2a, hmo2b, hd2a, hd2b, hh2, hmi2, hs2, -⟩ := h2
  have by1 : d1.year < 10 ^ 4 := by omega
  have by2 : d2.year < 10 ^ 4 := by omega
  have bmo1 : d1.month < 10 ^ 2 := by omega
  have bmo2 : d2.month < 10 ^ 2 := by omega
  have bd1 : d1.day < 10 ^ 2 := by omega
  have bd2 : d2.day < 10 ^ 2 := by omega
  have bh1 : d1.hour < 10 ^ 2 := by omega
  have bh2 : d2.hour < 10 ^ 2 := by omega
  have bmi1 : d1.minute < 10 ^ 2 := by omega
  have bmi2 : d2.minute < 10 ^ 2 := by omega
  have bs1 : d1.second < 10 ^ 2 := by omega
  have bs2 : d2.second < 10 ^ 2 := by omega
  unfold dtPre
  simp only [lexPadBlock, lexConsSameChar, padBlockEq, List.cons.injEq, true_and]
  rw [padC_lt_iff 4 by1 by2, padC_eq_iff 4 by1 by2,
    padC_lt_iff 2 bmo1 bmo2, padC_eq_iff 2 bmo1 bmo2,
    padC_lt_iff 2 bd1 bd2, padC_eq_iff 2 bd1 bd2,
    padC_lt_iff 2 bh1 bh2, padC_eq_iff 2 bh1 bh2,
    padC_lt_iff 2 bmi1 bmi2, padC_eq_iff 2 bmi1 bmi2,
    padC_lt_iff 2 bs1 bs2]
  unfold preKey
  omega

theorem dtPre_eq_iff {d1 d2 : PyDateTime} (h1 : ValidDT d1) (h2 : ValidDT d2) :
    dtPre d1 = dtPre d2 ↔ preKey d1 = preKey d2 := by
  obtain ⟨hy1a, hy1b, hmo1a, hmo1b, hd1a, hd1b, hh1, hmi1, hs1, -⟩ := h1
  obtain ⟨hy2a, hy2b, hmo2a, hmo2b, hd2a, hd2b, hh2, hmi2, hs2, -⟩ := h2
  have by1 : d1.year < 10 ^ 4 := by omega
  have by2 : d2.year < 10 ^ 4 := by omega
  have bmo1 : d1.month < 10 ^ 2 := by omega
  have bmo2 : d2.month < 10 ^ 2 := by omega
  have bd1 : d1.day < 10 ^ 2 := by omega
  have bd2 : d2.day < 10 ^ 2 := by omega
  have bh1 : d1.hour < 10 ^ 2 := by omega
  have bh2 : d2.hour < 10 ^ 2 := by omega
  have bmi1 : d1.minute < 10 ^ 2 := by omega
  have bmi2 : d2.minute < 10 ^ 2 := by omega
  have bs1 : d1.second < 10 ^ 2 := by omega
  have bs2 : d2.second < 10 ^ 2 := by omega
  unfold dtPre
  simp only [padBlockEq, List.cons.injEq, true_and]
  rw [padC_eq_iff 4 by1 by2, padC_eq_iff 2 bmo1 bmo2, padC_eq_iff 2 bd1 bd2,
    padC_eq_iff 2 bh1 bh2, padC_eq_iff 2 bmi1 bmi2, padC_eq_iff 2 bs1 bs2]
  unfold preKey
  omega

theorem fracSuffix_lex_iff {d1 d2 : PyDateTime}
    (h1 : d1.microsecond ≤ 999999) (h2 : d2.microsecond ≤ 999999) :
    (List.Lex (· < ·) (dtFrac d1 ++ (utcOffsetChars ++ ['Z']))
      (dtFrac d2 ++ (utcOffsetChars ++ ['Z']))) ↔ d1.microsecond < d2.microsecond := by
  have hb1 : d1.microsecond < 10 ^ 6 := by omega
  have hb2 : d2.microsecond < 10 ^ 6 := by omega
  have hirr : ∀ l : List Char, ¬ List.Lex (· < ·) l l := lexIrrefl fun a => lt_irrefl a
  unfold dtFrac
  by_cases e1 : d1.microsecond = 0
  · by_cases e2 : d2.microsecond = 0
    · rw [if_pos e1, if_pos e2]
      simp only [List.nil_append]
      exact iff_of_false (hirr _) (by omega)
    · rw [if_pos e1, if_neg e2]
      simp only [List.nil_append, List.cons_append]
      exact iff_of_true (List.Lex.rel (by decide)) (by omega)
  · by_cases e2 : d2.microsecond = 0
    · rw [if_neg e1, if_pos e2]
      simp only [List.nil_append, List.cons_append]
      refine iff_of_false (fun h => ?_) (by omega)
      rcases lexConsIff.mp h with h3 | ⟨h3, -⟩
      · exact absurd h3 (by decide)
      · exact absurd h3 (by decide)
    · rw [if_neg e1, if_neg e2]
      simp only [List.cons_append, lexConsSameChar, lexPadBlock]
      rw [padC_lt_iff 6 hb1 hb2, padC_eq_iff 6 hb1 hb2]
      constructor
      · rintro (h | ⟨-, h⟩)
        · exact h
        · exact absurd h (hirr _)
      · exact fun h => Or.inl h

theorem timeUtc_toList (d : PyDateTime) :
    (timeUtcOf d).toList = dtPre d ++ (dtFrac d ++ (utcOffsetChars ++ ['Z'])) := by
  show (dtPre d ++ dtFrac d ++ utcOffsetChars) ++ ['Z'] = _
  simp [List.append_assoc]

theorem timeUtc_lt_iff {d1 d2 : PyDateTime} (h1 : ValidDT d1) (h2 : ValidDT d2) :
    (timeUtcOf d1 < timeUtcOf d2) ↔ chronoKey d1 < chronoKey d2 := by
  have hus1 : d1.microsecond ≤ 999999 := h1.2.2.2.2.2.2.2.2.2
  have hus2 : d2.microsecond ≤ 999999 := h2.2.2.2.2.2.2.2.2.2
  have hbridge : ((timeUtcOf d1).toList < (timeUtcOf d2).toList) ↔
      List.Lex (· < ·) (timeUtcOf d1).toList (timeUtcOf d2).toList :=
    Iff.rfl
  rw [String.lt_iff_toList_lt, hbridge, timeUtc_toList, timeUtc_toList,
    lexAppendIff _ _ (by rw [dtPre_length, dtPre_length]),
    dtPre_lex_iff h1 h2, dtPre_eq_iff h1 h2, fracSuffix_lex_iff hus1 hus2]
  unfold chronoKey
  omega

theorem pyInt_eq_floor {q : ℚ} (h : 0 ≤ q) : pyInt q = ⌊q⌋ := by
  rw [Rat.floor_def, pyInt, Int.tdiv_eq_ediv (Rat.num_nonneg.mpr h) (by positivity)]

theorem filterMapFilter {α β : Type} (l : List α) (q : α → Bool) (f : α → β) :
    (l.filterMap fun a => if q a then some (f a) else none) = (l.filter q).map f := by
  induction l with
  | nil => rfl
  | cons a t ih =>
    by_cases hq : q a <;> simp [hq, ih]

/-- Claim C7: in the shadow-path kernel a sample is valid exactly when the
discriminant (2 S.u)^2 - 4 (S.S - R^2) with R = 6378.137 is non-negative;
the intersection parameter is the near root d = (-2 S.u - sqrt Δ) / 2 on
valid samples; and the argument handed to the square root is clamped to be
non-negative in every case. -/
theorem shadow_kernel_discriminant {K : Type} [LinearOrderedField K]
    (sqrtF : K → K) (su ss : K) :
    (shadowSampleOk su ss ↔ 0 ≤ (2 * su) ^ 2 - 4 * (ss - (6378137 / 1000 : K) ^ 2)) ∧
    0 ≤ max 0 (shadowDisc su ss) ∧
    (shadowSampleOk su ss →
      rayD sqrtF su ss =
        (-(2 * su) - sqrtF ((2 * su) ^ 2 - 4 * (ss - (6378137 / 1000 : K) ^ 2))) / 2) := by
  have e : shadowDisc su ss = (2 * su) ^ 2 - 4 * (ss - (6378137 / 1000 : K) ^ 2) := by
    unfold shadowDisc bCoeff cCoeff
    ring
  refine ⟨by unfold shadowSampleOk; rw [e], le_max_left 0 _, fun hok => ?_⟩
  unfold shadowSampleOk at hok
  unfold rayD bCoeff
  rw [max_eq_right hok, e]

theorem shadow_kernel_discriminant_witness :
    rayD (id : ℚ → ℚ) 0 0 =
      (-(2 * 0) - id ((2 * 0) ^ 2 - 4 * (0 - (6378137 / 1000 : ℚ) ^ 2))) / 2 := by
  refine (shadow_kernel_discriminant (id : ℚ → ℚ) 0 0).2.2 ?_
  unfold shadowSampleOk shadowDisc bCoeff cCoeff
  with_unfolding_all decide

/-- Claim C1: every emitted TransitEvent passes the three acceptance gates
at the event instant — body altitude at least -2 degrees, fine minimum
shadow-track distance at most radius_km, separation at most 5 degrees —
and a work item violating any one of them emits no event. -/
theorem transit_event_gates {K : Type} [LinearOrderedField K] (p : PassArgs K) :
    (∀ ev : TransitEvent K, processSinglePass p = some ev →
      ev.time_utc = p.oracle.isoUtc (transitT p) ++ "Z" ∧
      -2 ≤ p.oracle.bodyAltDeg (transitT p) ∧
      fineMinD p ≤ ((p.radius_km : K) : WithTop K) ∧
      p.oracle.sepDeg (transitT p) ≤ 5) ∧
    (p.oracle.bodyAltDeg (transitT p) < -2 → processSinglePass p = none) ∧
    (((p.radius_km : K) : WithTop K) < fineMinD p → processSinglePass p = none) ∧
    (5 < p.oracle.sepDeg (transitT p) → processSinglePass p = none) := by
  refine ⟨?_, ?_, ?_, ?_⟩
  · intro ev h
    unfold processSinglePass at h
    split_ifs at h with h1 h2 h3 h4 h5 h6 h7 h8 h9 <;>
      (injection h with h; subst h; exact ⟨rfl, not_lt.mp h8, not_lt.mp h7, not_lt.mp h9⟩)
  · intro hgate
    unfold processSinglePass
    split_ifs <;> rfl
  · intro hgate
    unfold processSinglePass
    split_ifs <;> rfl
  · intro hgate
    unfold processSinglePass
    split_ifs <;> rfl

theorem transit_event_gates_witness :
    (evEmit.time_utc = pEmit.oracle.isoUtc (transitT pEmit) ++ "Z" ∧
      -2 ≤ pEmit.oracle.bodyAltDeg (transitT pEmit) ∧
      fineMinD pEmit ≤ ((pEmit.radius_km : ℚ) : WithTop ℚ) ∧
      pEmit.oracle.sepDeg (transitT pEmit) ≤ 5) ∧
    processSinglePass pLowAlt = none ∧
    processSinglePass pWideSep = none := by
  refine ⟨(transit_event_gates pEmit).1 evEmit ?_,
    (transit_event_gates pLowAlt).2.1 ?_, (transit_event_gates pWideSep).2.2.2 ?_⟩
  · with_unfolding_all rfl
  · with_unfolding_all decide
  · with_unfolding_all decide

/-- Claim C2: for every emitted event, transit_type is "Transit" exactly
when separation_deg < 0.28, and otherwise it is "Close Pass". -/
theorem transit_type_threshold {K : Type} [LinearOrderedField K]
    (p : PassArgs K) (ev : TransitEvent K) (h : processSinglePass p = some ev) :
    (ev.transit_type = "Transit" ↔ ev.separation_deg < 28 / 100) ∧
    (¬ ev.separation_deg < 28 / 100 → ev.transit_type = "Close Pass") := by
  unfold processSinglePass at h
  split_ifs at h with h1 h2 h3 h4 h5 h6 h7 h8 h9 hsep
  · injection h with h
    subst h
    exact ⟨iff_of_true rfl hsep, fun hc => absurd hsep hc⟩
  · injection h with h
    subst h
    have hne : ("Close Pass" : String) ≠ "Transit" := by decide
    exact ⟨iff_of_false (fun hstr => hne hstr) hsep, fun _ => rfl⟩

theorem transit_type_threshold_witness :
    ((evEmit.transit_type = "Transit" ↔ evEmit.separation_deg < 28 / 100) ∧
      (¬ evEmit.separation_deg < 28 / 100 → evEmit.transit_type = "Close Pass")) ∧
    ((evClose.transit_type = "Transit" ↔ evClose.separation_deg < 28 / 100) ∧
      (¬ evClose.separation_deg < 28 / 100 → evClose.transit_type = "Close Pass")) :=
  ⟨transit_type_threshold pEmit evEmit (by with_unfolding_all rfl),
   transit_type_threshold pClose evClose (by with_unfolding_all rfl)⟩

/-- Claim C5: the fine window is centred on the coarse-minimum sample time
and clipped to [max(t_rise, centre - 10 s), min(t_set, centre + 10 s)]; the
grid spacing is 0.1 s (1/864000 day); an item with fewer than two fine
samples is rejected; and an item whose fine minimum exceeds radius_km is
rejected even though its coarse minimum was within radius_km + 500. -/
theorem fine_window_and_gates {K : Type} [LinearOrderedField K] (p : PassArgs K) :
    fineCenter p = coarseTime p.t_rise_tt (coarseMinIdx p) ∧
    fineStart p = max p.t_rise_tt (fineCenter p - 10 / (24 * 3600)) ∧
    fineEnd p = min p.t_set_tt (fineCenter p + 10 / (24 * 3600)) ∧
    (∀ i : ℕ, fineTime (fineStart p) (i + 1) - fineTime (fineStart p) i = 1 / 864000) ∧
    (fineCountZ p < 2 → processSinglePass p = none) ∧
    (coarseMinD p ≤ ((p.radius_km + 500 : K) : WithTop K) →
      ((p.radius_km : K) : WithTop K) < fineMinD p → processSinglePass p = none) := by
  refine ⟨rfl, rfl, rfl, ?_, ?_, ?_⟩
  · intro i
    unfold fineTime
    push_cast
    ring
  · intro hlt
    unfold processSinglePass
    split_ifs <;> rfl
  · intro hle hlt
    unfold processSinglePass
    split_ifs <;> rfl

theorem fine_window_and_gates_witness :
    processSinglePass pFewFine = none ∧ processSinglePass pFineReject = none := by
  refine ⟨(fine_window_and_gates pFewFine).2.2.2.2.1 ?_,
    (fine_window_and_gates pFineReject).2.2.2.2.2 ?_ ?_⟩
  · with_unfolding_all decide
  · with_unfolding_all decide
  · with_unfolding_all decide

/-- Claim C6 (amended): the coarse stage takes max(2, int(D / 2)) samples at
a uniform 2-second step from t_rise; when D > 2 every sample lies inside
[t_rise, t_set) (for 0 < D <= 2 the forced second sample overshoots t_set,
which refutes the unconditional containment of the original claim); invalid
samples get distance +inf; an item is rejected when every coarse sample is
invalid or the minimum haversine distance exceeds radius_km + 500. -/
theorem coarse_stage_behavior {K : Type} [LinearOrderedField K] (p : PassArgs K) :
    (0 < durationSec p.t_rise_tt p.t_set_tt →
      coarseCount p.t_rise_tt p.t_set_tt =
        (max 2 ⌊durationSec p.t_rise_tt p.t_set_tt / 2⌋).toNat) ∧
    coarseTimesList p.t_rise_tt p.t_set_tt =
      (List.range (coarseCount p.t_rise_tt p.t_set_tt)).map
        (fun i : ℕ => p.t_rise_tt + (i : ℚ) * 2 / (24 * 3600)) ∧
    (2 < durationSec p.t_rise_tt p.t_set_tt →
      ∀ i < coarseCount p.t_rise_tt p.t_set_tt,
        p.t_rise_tt ≤ coarseTime p.t_rise_tt i ∧ coarseTime p.t_rise_tt i < p.t_set_tt) ∧
    (∀ t : ℚ, (p.oracle.shadow t).1 = false →
      sampleDist p.oracle p.obs_lat p.obs_lon t = ⊤) ∧
    (∀ t : ℚ, (p.oracle.shadow t).1 = true →
      sampleDist p.oracle p.obs_lat p.obs_lon t =
        ((haversineK p.oracle (p.oracle.shadow t).2.1 (p.oracle.shadow t).2.2
          p.obs_lat p.obs_lon : K) : WithTop K)) ∧
    ((∀ t ∈ coarseTimesList p.t_rise_tt p.t_set_tt, (p.oracle.shadow t).1 = false) →
      processSinglePass p = none) ∧
    (((p.radius_km + 500 : K) : WithTop K) < coarseMinD p → processSinglePass p = none) := by
  refine ⟨?_, rfl, ?_, ?_, ?_, ?_, ?_⟩
  · intro hpos
    unfold coarseCount
    rw [pyInt_eq_floor (div_nonneg hpos.le (by norm_num))]
  · intro hD i hi
    have hD0 : (0 : ℚ) < durationSec p.t_rise_tt p.t_set_tt := by linarith
    constructor
    · unfold coarseTime
      have hnn : (0 : ℚ) ≤ (i : ℚ) * 2 / (24 * 3600) := by positivity
      linarith
    · have hkey : 2 * ((coarseCount p.t_rise_tt p.t_set_tt : ℚ) - 1) <
          durationSec p.t_rise_tt p.t_set_tt := by
        unfold coarseCount
        rw [pyInt_eq_floor (div_nonneg hD0.le (by norm_num))]
        have hF1 : (1 : ℤ) ≤ ⌊durationSec p.t_rise_tt p.t_set_tt / 2⌋ := by
          rw [Int.le_floor]
          push_cast
          linarith
        rcases le_or_lt ⌊durationSec p.t_rise_tt p.t_set_tt / 2⌋ 2 with hF2 | hF2
        · have h2 : (max 2 ⌊durationSec p.t_rise_tt p.t_set_tt / 2⌋).toNat = 2 := by omega
          rw [h2]
          push_cast
          linarith
        · have hFD : ((⌊durationSec p.t_rise_tt p.t_set_tt / 2⌋ : ℤ) : ℚ) ≤
              durationSec p.t_rise_tt p.t_set_tt / 2 := Int.floor_le _
          have h2 : (max 2 ⌊durationSec p.t_rise_tt p.t_set_tt / 2⌋).toNat =
              ⌊durationSec p.t_rise_tt p.t_set_tt / 2⌋.toNat := by omega
          rw [h2]
          have h3 : ((⌊durationSec p.t_rise_tt p.t_set_tt / 2⌋.toNat : ℕ) : ℚ) =
              ((⌊durationSec p.t_rise_tt p.t_set_tt / 2⌋ : ℤ) : ℚ) := by
            have h4 : ((⌊durationSec p.t_rise_tt p.t_set_tt / 2⌋.toNat : ℕ) : ℤ) =
                ⌊durationSec p.t_rise_tt p.t_set_tt / 2⌋ :=
              Int.toNat_of_nonneg (by omega)
            exact_mod_cast congrArg (fun z : ℤ => (z : ℚ)) h4
          rw [h3]
          linarith
      have hicast : (i : ℚ) ≤ (coarseCount p.t_rise_tt p.t_set_tt : ℚ) - 1 := by
        have hN : (i : ℚ) + 1 ≤ (coarseCount p.t_rise_tt p.t_set_tt : ℚ) := by
          exact_mod_cast hi
        linarith
      unfold coarseTime
      have h86 : (0 : ℚ) < 24 * 3600 := by norm_num
      have hstep : (i : ℚ) * 2 / (24 * 3600) < p.t_set_tt - p.t_rise_tt := by
        rw [div_lt_iff₀ h86]
        have hD2 : durationSec p.t_rise_tt p.t_set_tt =
            (p.t_set_tt - p.t_rise_tt) * (24 * 3600) := by
          unfold durationSec
          ring
        nlinarith
      linarith
  · intro t ht
    simp [sampleDist, ht]
  · intro t ht
    simp [sampleDist, ht]
  · intro hall
    have hcond : (coarseTimesList p.t_rise_tt p.t_set_tt).all
        (fun t => !(p.oracle.shadow t).1) = true :=
      List.all_eq_true.mpr fun t ht => by simp [hall t ht]
    unfold processSinglePass
    split_ifs <;> rfl
  · intro hgt
    unfold processSinglePass
    split_ifs <;> rfl

theorem coarse_stage_behavior_witness :
    (coarseCount pEmit.t_rise_tt pEmit.t_set_tt =
      (max 2 ⌊durationSec pEmit.t_rise_tt pEmit.t_set_tt / 2⌋).toNat) ∧
    processSinglePass pInvalid = none ∧
    processSinglePass pCoarseReject = none := by
  refine ⟨(coarse_stage_behavior pEmit).1 ?_,
    (coarse_stage_behavior pInvalid).2.2.2.2.2.1 (fun t _ => rfl),
    (coarse_stage_behavior pCoarseReject).2.2.2.2.2.2 ?_⟩
  · with_unfolding_all decide
  · with_unfolding_all decide

theorem coarse_sample_overshoot_counterexample :
    durationSec 0 (1 / 86400) = 1 ∧
    coarseTimesList 0 (1 / 86400) = [0, 1 / 43200] ∧
    ¬ ((1 / 43200 : ℚ) < 1 / 86400) := by
  refine ⟨by with_unfolding_all rfl, by with_unfolding_all rfl, by norm_num⟩

/-- Claim C8: the path_points of an emitted event are exactly the subpoints
at the fine indices whose shadow sample is valid, the index sequence is
strictly increasing (and the fine grid time is strictly monotone in the
index, so the points are in increasing time order), and the sequence is
non-empty. -/
theorem path_points_valid_subpoints {K : Type} [LinearOrderedField K]
    (p : PassArgs K) (ev : TransitEvent K) (h : processSinglePass p = some ev) :
    ev.path_points =
      ((List.range (fineCountZ p).toNat).filter
        (fun j => (p.oracle.shadow (fineTime (fineStart p) j)).1)).map
        (fun j => ⟨(p.oracle.shadow (fineTime (fineStart p) j)).2.1,
          (p.oracle.shadow (fineTime (fineStart p) j)).2.2⟩) ∧
    ev.path_points ≠ [] ∧
    List.Sorted (· < ·)
      ((List.range (fineCountZ p).toNat).filter
        (fun j => (p.oracle.shadow (fineTime (fineStart p) j)).1)) ∧
    (∀ i j : ℕ, i < j → fineTime (fineStart p) i < fineTime (fineStart p) j) := by
  have hshape : pathPoints p =
      ((List.range (fineCountZ p).toNat).filter
        (fun j => (p.oracle.shadow (fineTime (fineStart p) j)).1)).map
        (fun j => (⟨(p.oracle.shadow (fineTime (fineStart p) j)).2.1,
          (p.oracle.shadow (fineTime (fineStart p) j)).2.2⟩ : TransitPoint K)) :=
    filterMapFilter _ _ _
  have hsorted : List.Sorted (· < ·)
      ((List.range (fineCountZ p).toNat).filter
        (fun j => (p.oracle.shadow (fineTime (fineStart p) j)).1)) :=
    (List.pairwise_lt_range _).filter _
  have hmono : ∀ i j : ℕ, i < j → fineTime (fineStart p) i < fineTime (fineStart p) j := by
    intro i j hij
    unfold fineTime
    have hcast : (i : ℚ) < (j : ℚ) := by exact_mod_cast hij
    have hdiv : (i : ℚ) / (24 * 3600 * 10) < (j : ℚ) / (24 * 3600 * 10) :=
      (div_lt_div_iff_of_pos_right (by norm_num)).mpr hcast
    linarith
  have hany : ¬ ((fineTimesList p).all (fun t => !(p.oracle.shadow t).1) = true) := by
    intro hcontra
    unfold processSinglePass at h
    split_ifs at h
  have hnonempty : pathPoints p ≠ [] := by
    rw [hshape]
    intro hemp
    have hfil := List.map_eq_nil_iff.mp hemp
    have hex : ∃ t ∈ fineTimesList p, (p.oracle.shadow t).1 = true := by
      by_contra hno
      push_neg at hno
      apply hany
      refine List.all_eq_true.mpr fun t ht => ?_
      have hf := hno t ht
      simp only [Bool.not_eq_true] at hf
      simp [hf]
    obtain ⟨t, htmem, htval⟩ := hex
    obtain ⟨j, hj, rfl⟩ := List.mem_map.mp htmem
    have hjf : j ∈ (List.range (fineCountZ p).toNat).filter
        (fun j => (p.oracle.shadow (fineTime (fineStart p) j)).1) :=
      List.mem_filter.mpr ⟨hj, htval⟩
    rw [hfil] at hjf
    exact absurd hjf (List.not_mem_nil j)
  unfold processSinglePass at h
  split_ifs at h <;> (injection h with h; subst h; exact ⟨hshape, hnonempty, hsorted, hmono⟩)

theorem path_points_valid_subpoints_witness : evEmit.path_points ≠ [] :=
  (path_points_valid_subpoints pEmit evEmit (by with_unfolding_all rfl)).2.1

theorem get_satellites_absent {w : World} {catalog : SatMapping}
    (hcat : w.catalogPresent = false) (hfetch : w.fetchOk = false) :
    get_satellites w catalog = Except.error ApiError.fileNotFound := by
  simp [get_satellites, download_tle, hcat, hfetch]

theorem get_satellites_never_badRequest {w : World} {catalog : SatMapping} {e : ApiError}
    (hg : get_satellites w catalog = Except.error e) : e = ApiError.fileNotFound := by
  unfold get_satellites at hg
  split_ifs at hg
  injection hg with hg2
  exact hg2.symm

theorem calculate_badRequest_of_parse_fail (w : World) (catalog : SatMapping)
    (raw : List (TransitEvent ℚ)) (req : CalculateRequest)
    (hfail : fromisoformat req.start_date = none ∨ fromisoformat req.end_date = none) :
    calculate_transits w catalog raw req =
      Except.error (ApiError.badRequest ("Invalid date format. Use YYYY-MM-DD")) := by
  unfold calculate_transits
  rcases hfail with hf | hf
  · rw [hf]
  · rw [hf]
    cases hstart : fromisoformat req.start_date with
    | none => rfl
    | some d => rfl

theorem calculate_no_badRequest_of_parsed (w : World) (catalog : SatMapping)
    (raw : List (TransitEvent ℚ)) (req : CalculateRequest) (d0 d1 : PyDateTime)
    (h0 : fromisoformat req.start_date = some d0)
    (h1 : fromisoformat req.end_date = some d1) (s : String) :
    calculate_transits w catalog raw req ≠ Except.error (ApiError.badRequest s) := by
  unfold calculate_transits
  rw [h0, h1]
  cases hg : get_satellites w catalog with
  | ok m =>
    intro hcontra
    exact Except.noConfusion hcontra
  | error e =>
    have he : e = ApiError.fileNotFound := get_satellites_never_badRequest hg
    subst he
    intro hcontra
    injection hcontra with h2
    exact ApiError.noConfusion h2

theorem calculate_ok_sorted (w : World) (catalog : SatMapping)
    (raw : List (TransitEvent ℚ)) (req : CalculateRequest)
    (res : List (TransitEvent ℚ))
    (h : calculate_transits w catalog raw req = Except.ok res) :
    res = sortEvents raw ∧ List.Sorted timeUtcLe res := by
  unfold calculate_transits at h
  cases h0 : fromisoformat req.start_date with
  | none =>
    rw [h0] at h
    exact Except.noConfusion h
  | some d0 =>
    cases h1 : fromisoformat req.end_date with
    | none =>
      rw [h0, h1] at h
      exact Except.noConfusion h
    | some d1 =>
      rw [h0, h1] at h
      cases hg : get_satellites w catalog with
      | ok m =>
        rw [hg] at h
        injection h with h
        refine ⟨h.symm, ?_⟩
        rw [← h]
        exact List.sorted_insertionSort timeUtcLe raw
      | error e =>
        rw [hg] at h
        exact Except.noConfusion h

/-- Claim C3 (amended): when the TLE catalog file is absent and every fetch
attempt fails, get_satellites raises FileNotFoundError (the reload after the
download attempt still finds no file); the request handler does not catch
it, so the request fails with that non-BadRequest error instead of
succeeding with an empty event list. -/
theorem registry_failure_propagates (w : World) (catalog : SatMapping)
    (raw : List (TransitEvent ℚ)) (req : CalculateRequest) (d0 d1 : PyDateTime)
    (hcat : w.catalogPresent = false) (hfetch : w.fetchOk = false)
    (h0 : fromisoformat req.start_date = some d0)
    (h1 : fromisoformat req.end_date = some d1) :
    get_satellites w catalog = Except.error ApiError.fileNotFound ∧
    calculate_transits w catalog raw req = Except.error ApiError.fileNotFound ∧
    (∀ s : String, ApiError.fileNotFound ≠ ApiError.badRequest s) := by
  have hget : get_satellites w catalog = Except.error ApiError.fileNotFound :=
    get_satellites_absent hcat hfetch
  refine ⟨hget, ?_, fun s h => ApiError.noConfusion h⟩
  unfold calculate_transits
  rw [h0, h1, hget]

theorem registry_failure_counterexample :
    get_satellites wAbsent [] = Except.error ApiError.fileNotFound ∧
    calculate_transits wAbsent [] [] reqGood = Except.error ApiError.fileNotFound ∧
    (Except.error ApiError.fileNotFound ≠ (Except.ok [] : Except ApiError SatMapping)) := by
  refine ⟨rfl, ?_, fun h => Except.noConfusion h⟩
  with_unfolding_all rfl

theorem registry_failure_propagates_witness :
    calculate_transits wAbsent [] [] reqGood = Except.error ApiError.fileNotFound :=
  (registry_failure_propagates wAbsent [] [] reqGood
    ⟨2024, 5, 1, 0, 0, 0, 0⟩ ⟨2024, 5, 31, 0, 0, 0, 0⟩ rfl rfl
    (by decide) (by decide)).2.1

/-- Claim C4 (amended): only date-parse failure makes the request handler
fail with BadRequest (HTTP 400); the declared numeric ranges for lat, lon
and radius_km are never validated, so a request violating them is not
rejected — it proceeds exactly like an in-range request. -/
theorem normalizer_validation (w : World) (catalog : SatMapping)
    (raw : List (TransitEvent ℚ)) (req : CalculateRequest) :
    ((fromisoformat req.start_date = none ∨ fromisoformat req.end_date = none) →
      calculate_transits w catalog raw req =
        Except.error (ApiError.badRequest ("Invalid date format. Use YYYY-MM-DD"))) ∧
    (∀ d0 d1 : PyDateTime, fromisoformat req.start_date = some d0 →
      fromisoformat req.end_date = some d1 →
      ∀ s : String,
        calculate_transits w catalog raw req ≠ Except.error (ApiError.badRequest s)) :=
  ⟨calculate_badRequest_of_parse_fail w catalog raw req,
   fun d0 d1 h0 h1 s => calculate_no_badRequest_of_parsed w catalog raw req d0 d1 h0 h1 s⟩

theorem numeric_range_counterexample :
    reqOutOfRange.lat = 1000 ∧ reqOutOfRange.lon = -999 ∧ reqOutOfRange.radius_km = -5 ∧
    calculate_transits wPresent [] [] reqOutOfRange = Except.ok [] := by
  refine ⟨rfl, rfl, rfl, ?_⟩
  with_unfolding_all rfl

theorem normalizer_validation_witness :
    calculate_transits wPresent [] [] reqBadDate =
      Except.error (ApiError.badRequest ("Invalid date format. Use YYYY-MM-DD")) ∧
    calculate_transits wPresent [] [] reqOutOfRange ≠
      Except.error (ApiError.badRequest ("Invalid date format. Use YYYY-MM-DD")) :=
  ⟨(normalizer_validation wPresent [] [] reqBadDate).1 (Or.inl (by decide)),
   (normalizer_validation wPresent [] [] reqOutOfRange).2
     ⟨2024, 5, 1, 0, 0, 0, 0⟩ ⟨2024, 5, 2, 0, 0, 0, 0⟩ (by decide) (by decide) _⟩

/-- Claim C9: every successful response is the raw event list sorted
ascending by the time_utc string; each time_utc string ends with the
character Z; and for valid datetimes the string order of time_utc values
coincides with chronological order (the mixed-radix chronoKey), the
microsecond-omission case included, because the aware isoformat suffix
+00:00 sorts before both the fraction dot and any digit. -/
theorem events_sorted_and_chronological :
    (∀ (w : World) (catalog : SatMapping) (raw : List (TransitEvent ℚ))
      (req : CalculateRequest) (res : List (TransitEvent ℚ)),
      calculate_transits w catalog raw req = Except.ok res →
      res = sortEvents raw ∧ List.Sorted timeUtcLe res) ∧
    (∀ d : PyDateTime, (timeUtcOf d).toList.getLast? = some ('Z')) ∧
    (∀ d1 d2 : PyDateTime, ValidDT d1 → ValidDT d2 →
      ((timeUtcOf d1 < timeUtcOf d2) ↔ chronoKey d1 < chronoKey d2)) := by
  refine ⟨calculate_ok_sorted, ?_, fun d1 d2 h1 h2 => timeUtc_lt_iff h1 h2⟩
  intro d
  rw [timeUtc_toList]
  rw [show dtPre d ++ (dtFrac d ++ (utcOffsetChars ++ ['Z'])) =
      (dtPre d ++ dtFrac d ++ utcOffsetChars) ++ ['Z'] by simp [List.append_assoc]]
  exact List.getLast?_concat _

theorem events_sorted_and_chronological_witness :
    List.Sorted timeUtcLe ([] : List (TransitEvent ℚ)) ∧
    ((timeUtcOf dtWhole < timeUtcOf dtHalf) ↔ chronoKey dtWhole < chronoKey dtHalf) :=
  ⟨(events_sorted_and_chronological.1 wPresent [] [] reqGood []
      (by with_unfolding_all rfl)).2,
   events_sorted_and_chronological.2.2 dtWhole dtHalf (by decide) (by decide)⟩

/-- Claim C10: a start or end date that ISO parsing accepts but that is not
of the plain YYYY-MM-DD form — for example one carrying a time-of-day —
is not rejected with BadRequest; the handler keeps only the parsed calendar
date, silently truncating the window boundary to 00:00 UTC of that date. -/
theorem date_parse_truncation :
    fromisoformat ("2024-05-01T12:34:56") = some ⟨2024, 5, 1, 12, 34, 56, 0⟩ ∧
    (∀ (req : CalculateRequest) (d0 d1 : PyDateTime),
      fromisoformat req.start_date = some d0 →
      fromisoformat req.end_date = some d1 →
      (∀ (w : World) (catalog : SatMapping) (raw : List (TransitEvent ℚ)) (s : String),
        calculate_transits w catalog raw req ≠ Except.error (ApiError.badRequest s)) ∧
      normalizedWindow req = some ((d0.year, d0.month, d0.day), (d1.year, d1.month, d1.day))) := by
  constructor
  · decide
  · intro req d0 d1 h0 h1
    refine ⟨fun w catalog raw s =>
      calculate_no_badRequest_of_parsed w catalog raw req d0 d1 h0 h1 s, ?_⟩
    unfold normalizedWindow tsUtcOfDate
    rw [h0, h1]

theorem date_parse_truncation_witness :
    normalizedWindow reqTimeOfDay = some ((2024, 5, 1), (2024, 5, 2)) :=
  (date_parse_truncation.2 reqTimeOfDay ⟨2024, 5, 1, 12, 34, 56, 0⟩ ⟨2024, 5, 2, 0, 0, 0, 0⟩
    (by decide) (by decide)).2
